import Mathlib

/-!
The minisam Sophus wrapper (`minisam/sophus_wrapper/sophus.cpp`)

A shallow embedding of the binding layer that exposes the Lie group types
`SO2`, `SE2`, `SO3`, `SE3` to the host language.

Scalars (`double` in the source) are an arbitrary type `S` carrying the
operations the wrapped library applies to them (`+`, `*`, `/`, `≤`; the square
root and the library's tolerance come through `Numerics`).  The definitions
assume no law of arithmetic, so what is proved of them without an algebraic
hypothesis holds for rounded arithmetic as well as for an exact field; a
theorem that needs a law names it as a hypothesis or is stated over an ordered
field.
-/

namespace Minisam

/-! ## Data model -/

/-- `Eigen::Vector2d`: two scalars, read as `v[0]`, `v[1]`. -/
abbrev Vector2 (S : Type) := Fin 2 → S

/-- `Eigen::Vector3d`. -/
abbrev Vector3 (S : Type) := Fin 3 → S

/-- `Eigen::Vector4d`. -/
abbrev Vector4 (S : Type) := Fin 4 → S

/-- `std::complex<double>`: real and imaginary part. -/
structure StdComplex (S : Type) where
  re : S
  im : S
deriving DecidableEq, Repr

/-- `std::real(c)`. -/
def StdComplex.real {S : Type} (c : StdComplex S) : S := c.re

/-- `std::imag(c)`. -/
def StdComplex.imag {S : Type} (c : StdComplex S) : S := c.im

/-! ## Conversion helpers (sophus.cpp lines 44-50) -/

/-- `complex_to_vector2`: `Eigen::Vector2d(std::real(c), std::imag(c))`. -/
def complex_to_vector2 {S : Type} (c : StdComplex S) : Vector2 S :=
  ![c.real, c.imag]

/-- `vector2_to_complex`: `std::complex<double>(v[0], v[1])`. -/
def vector2_to_complex {S : Type} (v : Vector2 S) : StdComplex S :=
  ⟨v 0, v 1⟩

/-! ## The wrapped geometry library

The group types themselves live in the wrapped library, outside the binding
file.  What the binding relies on is modelled here. -/

/-- Modelled from the spec: the scalar functions of the wrapped geometry
library that the binding file does not contain: the square root with which a
norm is measured, and the tolerance `epsilon` below which a norm counts as
zero ("invalid construction arguments ... whatever the wrapped geometry
library raises"). -/
structure Numerics (S : Type) where
  sqrt : S → S
  epsilon : S

/-- Modelled from the spec: the wrapped type `SO2d`, "a single rotation angle,
represented internally as a unit complex number". -/
structure SO2d (S : Type) where
  unit_complex_ : Vector2 S

/-- Modelled from the spec: default construction `SO2d()`, the identity
element, whose unit complex number is `1 + 0i`. -/
def SO2d.identity {S : Type} [Zero S] [One S] : SO2d S := ⟨![1, 0]⟩

/-- Modelled from the spec: `SO2d(const Vector2d&)`, "construct from a 2D
vector interpreted as a complex number".  The representation "must always
encode a valid group element" (unit norm), so the vector is divided by its
length; only a vector whose length is at least the tolerance is accepted. -/
def SO2d.ofComplex {S : Type} [Add S] [Mul S] [Div S] [LE S]
    [DecidableRel (fun a b : S => a ≤ b)] (N : Numerics S) (v : Vector2 S) :
    Option (SO2d S) :=
  let length := N.sqrt (v 0 * v 0 + v 1 * v 1)
  if N.epsilon ≤ length then some ⟨![v 0 / length, v 1 / length]⟩
  else none

/-- Modelled from the spec: `SO2d::unit_complex()`, the "accessor returning the
unit-complex representation as a 2-vector". -/
def SO2d.unit_complex {S : Type} (r : SO2d S) : Vector2 S := r.unit_complex_

/-- Modelled from the spec: `SO3d::QuaternionType`, the underlying quaternion
type; its coefficients are held in the order (x, y, z, w). -/
structure QuaternionType (S : Type) where
  x : S
  y : S
  z : S
  w : S
deriving DecidableEq, Repr

/-- Modelled from the spec: the constructor of the underlying quaternion type,
which takes its arguments "in (w,x,y,z) order": scalar part first. -/
def QuaternionType.init {S : Type} (w x y z : S) : QuaternionType S := ⟨x, y, z, w⟩

/-- Modelled from the spec: `coeffs()`, "the quaternion coefficients as a
4-vector", in the order (x, y, z, w). -/
def QuaternionType.coeffs {S : Type} (q : QuaternionType S) : Vector4 S :=
  ![q.x, q.y, q.z, q.w]

/-- The scalar part of a quaternion. -/
def QuaternionType.scalarPart {S : Type} (q : QuaternionType S) : S := q.w

/-- The vector part of a quaternion. -/
def QuaternionType.vec {S : Type} (q : QuaternionType S) : Vector3 S := ![q.x, q.y, q.z]

/-- Modelled from the spec: the wrapped type `SO3d`, "a rotation represented
internally as a unit quaternion". -/
structure SO3d (S : Type) where
  unit_quaternion_ : QuaternionType S

/-- Modelled from the spec: default construction `SO3d()`, the identity
rotation, whose quaternion has scalar part 1 and vector part 0. -/
def SO3d.identity {S : Type} [Zero S] [One S] : SO3d S := ⟨QuaternionType.init 1 0 0 0⟩

/-- Modelled from the spec: `SO3d(const QuaternionType&)`.  The representation
"must always encode a valid group element" (unit norm), so the quaternion is
divided by its norm; only a quaternion whose norm is at least the tolerance
is accepted. -/
def SO3d.ofQuaternion {S : Type} [Add S] [Mul S] [Div S] [LE S]
    [DecidableRel (fun a b : S => a ≤ b)] (N : Numerics S)
    (q : QuaternionType S) : Option (SO3d S) :=
  let length := N.sqrt (q.x * q.x + q.y * q.y + q.z * q.z + q.w * q.w)
  if N.epsilon ≤ length then
    some ⟨⟨q.x / length, q.y / length, q.z / length, q.w / length⟩⟩
  else none

/-- Modelled from the spec: `SO3d::unit_quaternion()`, the stored unit
quaternion. -/
def SO3d.unit_quaternion {S : Type} (r : SO3d S) : QuaternionType S := r.unit_quaternion_

/-- Modelled from the spec: the wrapped type `SE2d`, the "composition of an SO2
rotation and a 2-vector translation". -/
structure SE2d (S : Type) where
  so2_ : SO2d S
  translation_ : Vector2 S

/-- Modelled from the spec: `SE2d(const SO2d&, const Vector2d&)`, "construct
from rotation+translation". -/
def SE2d.init {S : Type} (so2 : SO2d S) (translation : Vector2 S) : SE2d S :=
  ⟨so2, translation⟩

/-- Modelled from the spec: `SE2d::so2()`, accessor for the rotation
component. -/
def SE2d.so2 {S : Type} (g : SE2d S) : SO2d S := g.so2_

/-- Modelled from the spec: `SE2d::translation()`, accessor for the
translation component. -/
def SE2d.translation {S : Type} (g : SE2d S) : Vector2 S := g.translation_

/-- Modelled from the spec: the wrapped type `SE3d`, the "composition of an SO3
rotation and a 3-vector translation". -/
structure SE3d (S : Type) where
  so3_ : SO3d S
  translation_ : Vector3 S

/-- Modelled from the spec: `SE3d(const SO3d&, const Vector3d&)`, "construct
from rotation+translation". -/
def SE3d.init {S : Type} (so3 : SO3d S) (translation : Vector3 S) : SE3d S :=
  ⟨so3, translation⟩

/-- Modelled from the spec: `SE3d::so3()`, accessor for the rotation
component. -/
def SE3d.so3 {S : Type} (g : SE3d S) : SO3d S := g.so3_

/-- Modelled from the spec: `SE3d::translation()`, accessor for the
translation component. -/
def SE3d.translation {S : Type} (g : SE3d S) : Vector3 S := g.translation_

/-! ## The bound methods (sophus.cpp lines 85-161) -/

/-- `SO2(c)`, lines 91-93: `SO2d(complex_to_vector2(c))`. -/
def SO2_init_complex {S : Type} [Add S] [Mul S] [Div S] [LE S]
    [DecidableRel (fun a b : S => a ≤ b)] (N : Numerics S) (c : StdComplex S) :
    Option (SO2d S) :=
  SO2d.ofComplex N (complex_to_vector2 c)

/-- `SO2.unit_complex`, lines 96-98: `vector2_to_complex(obj.unit_complex())`. -/
def SO2_unit_complex {S : Type} (obj : SO2d S) : StdComplex S :=
  vector2_to_complex obj.unit_complex

/-- `SE2(rotation, translation)`, line 107: the wrapped constructor, bound
as it is. -/
def SE2_init {S : Type} (so2 : SO2d S) (translation : Vector2 S) : SE2d S :=
  SE2d.init so2 translation

/-- `SE2.so2`, lines 113-114: the wrapped accessor, result copied. -/
def SE2_so2 {S : Type} (obj : SE2d S) : SO2d S := obj.so2

/-- `SE2.translation`, lines 115-116: the wrapped accessor, result copied. -/
def SE2_translation {S : Type} (obj : SE2d S) : Vector2 S := obj.translation

/-- `SO3(x, y, z, w)`, lines 125-127:
`SO3d(SO3d::QuaternionType(w, x, y, z))`. -/
def SO3_init {S : Type} [Add S] [Mul S] [Div S] [LE S]
    [DecidableRel (fun a b : S => a ≤ b)] (N : Numerics S) (x y z w : S) :
    Option (SO3d S) :=
  SO3d.ofQuaternion N (QuaternionType.init w x y z)

/-- `SO3.unit_quaternion`, lines 132-136: the coefficients of
`obj.unit_quaternion()` as a 4-vector. -/
def SO3_unit_quaternion {S : Type} (obj : SO3d S) : Vector4 S :=
  let q := obj.unit_quaternion
  let qv := q.coeffs
  qv

/-- `SE3(rotation, translation)`, line 145: the wrapped constructor, bound
as it is. -/
def SE3_init {S : Type} (so3 : SO3d S) (translation : Vector3 S) : SE3d S :=
  SE3d.init so3 translation

/-- `SE3.so3`, lines 154-155: the wrapped accessor, result copied. -/
def SE3_so3 {S : Type} (obj : SE3d S) : SO3d S := obj.so3

/-- `SE3.translation`, lines 156-157: the wrapped accessor, result copied. -/
def SE3_translation {S : Type} (obj : SE3d S) : Vector3 S := obj.translation

/-! ## `WRAP_SOPHUS_TYPE_LIE_GROUP(T)` (sophus.cpp lines 57-72) -/

/-- The members of a wrapped type `T` that `WRAP_SOPHUS_TYPE_LIE_GROUP(T)`
names.  The wrapped library defines them; the binding only forwards to them, so
they are parameters of the embedding. -/
structure SophusType (T Tangent Point : Type) where
  /-- `T()` -/
  init : T
  /-- `T::log` -/
  log : T → Tangent
  /-- `T::exp` -/
  exp : Tangent → T
  /-- `T::inverse` -/
  inverse : T → T
  /-- `operator*` on two elements -/
  mul : T → T → T
  /-- `operator*` on an element and a point -/
  act : T → Point → Point

/-- The outcome of a bound binary operator: the value handed back to the host
and the two operand objects as they are after the call. -/
structure BinaryCall (T : Type) where
  result : T
  lhs : T
  rhs : T

/-- `T(v)` for `v` already a `T`: C++ copy construction, a new object holding
the same value. -/
def copy_construct {T : Type} (v : T) : T := v

/-- `py::self * py::self`, line 68: returns `a * b`; both operands are taken
by const reference. -/
def self_mul_self {T Tangent Point : Type} (L : SophusType T Tangent Point) (a b : T) :
    BinaryCall T :=
  { result := L.mul a b, lhs := a, rhs := b }

/-- `__imul__`, lines 70-72: `[](const T& a, const T& b) { return T(a * b); }`. -/
def __imul__ {T Tangent Point : Type} (L : SophusType T Tangent Point) (a b : T) :
    BinaryCall T :=
  { result := copy_construct (L.mul a b), lhs := a, rhs := b }

/-! ## Module version (sophus.cpp lines 21-22 and 171-175) -/

/-- Exact rational scalars: the rational square root (exact on squares of
rationals) and the tolerance `1e-10`. -/
def ratNumerics : Numerics ℚ := ⟨Rat.sqrt, 1 / 10000000000⟩

/-! ## Helper lemmas -/

theorem ratNumerics_sqrt_one : ratNumerics.sqrt 1 = 1 := by
  have h : Rat.sqrt (1 * 1) = |1| := Rat.sqrt_eq 1
  rw [mul_one, abs_one] at h
  exact h

theorem ratNumerics_sqrt_four : ratNumerics.sqrt 4 = 2 := by
  have h : Rat.sqrt (2 * 2) = |2| := Rat.sqrt_eq 2
  rw [show (2 : ℚ) * 2 = 4 by norm_num, abs_of_pos (by norm_num : (0 : ℚ) < 2)] at h
  exact h

theorem ratNumerics_sqrt_nine : ratNumerics.sqrt 9 = 3 := by
  have h : Rat.sqrt (3 * 3) = |3| := Rat.sqrt_eq 3
  rw [show (3 : ℚ) * 3 = 9 by norm_num, abs_of_pos (by norm_num : (0 : ℚ) < 3)] at h
  exact h

theorem ratNumerics_epsilon_le_one : ratNumerics.epsilon ≤ 1 := by
  norm_num [ratNumerics]

/-- Rescaling by a norm that measures 1 stores the quaternion unchanged. -/
theorem SO3d.ofQuaternion_of_unit {S : Type} [LinearOrderedField S] (N : Numerics S)
    (q : QuaternionType S) (hs : N.sqrt 1 = 1) (he : N.epsilon ≤ 1)
    (hq : q.x * q.x + q.y * q.y + q.z * q.z + q.w * q.w = 1) :
    SO3d.ofQuaternion N q = some ⟨q⟩ := by
  simp [SO3d.ofQuaternion, hq, hs, he]

/-- C10: `vector2_to_complex` and `complex_to_vector2` are mutually inverse,
for every complex number and every 2-vector, and the real part corresponds to
component 0, the imaginary part to component 1. -/
theorem conversion_helpers_mutually_inverse {S : Type} :
    (∀ c : StdComplex S, vector2_to_complex (complex_to_vector2 c) = c) ∧
    (∀ v : Vector2 S, complex_to_vector2 (vector2_to_complex v) = v) ∧
    (∀ c : StdComplex S, complex_to_vector2 c 0 = c.re ∧ complex_to_vector2 c 1 = c.im) ∧
    (∀ v : Vector2 S, (vector2_to_complex v).re = v 0 ∧ (vector2_to_complex v).im = v 1) := by
  refine ⟨fun c => rfl, fun v => ?_, fun c => ⟨rfl, rfl⟩, fun v => ⟨rfl, rfl⟩⟩
  funext i
  fin_cases i <;> rfl

/-! ## SO3 -/

/-- C1, as stated, fails: built from the non-unit coefficients (0, 0, 0, 2),
`unit_quaternion()` returns (0, 0, 0, 1), which is neither (0, 0, 0, 2) nor
its negation. -/
theorem SO3_round_trip_rescales :
    (SO3_init ratNumerics 0 0 0 2).map SO3_unit_quaternion = some ![0, 0, 0, 1] ∧
    (SO3_init ratNumerics 0 0 0 2).map SO3_unit_quaternion ≠ some ![0, 0, 0, 2] ∧
    (SO3_init ratNumerics 0 0 0 2).map SO3_unit_quaternion ≠ some ![-0, -0, -0, -2] := by
  have h4 : ratNumerics.sqrt 4 = 2 := ratNumerics_sqrt_four
  have he : ratNumerics.epsilon ≤ 2 := by norm_num [ratNumerics]
  have hval : (SO3_init ratNumerics 0 0 0 2).map SO3_unit_quaternion = some ![0, 0, 0, 1] := by
    have hn : (0 : ℚ) * 0 + 0 * 0 + 0 * 0 + 2 * 2 = 4 := by norm_num
    simp only [SO3_init, SO3d.ofQuaternion, QuaternionType.init, hn, h4, he, if_true,
      Option.map_some', SO3_unit_quaternion, SO3d.unit_quaternion, QuaternionType.coeffs]
    norm_num
  refine ⟨hval, ?_, ?_⟩
  · rw [hval]
    intro h
    have h3 := congrFun (Option.some.inj h) 3
    norm_num at h3
  · rw [hval]
    intro h
    have h3 := congrFun (Option.some.inj h) 3
    norm_num at h3

/-- C1, amended: whenever the norm `n` of (x, y, z, w), as the library
measures it, is at least the library's tolerance, `SO3(x, y, z, w)` succeeds
and `unit_quaternion()` returns (x/n, y/n, z/n, w/n): the coefficients of
(x, y, z, w) in the same order, rescaled to unit norm, with no change of sign
(which "up to the overall sign" admits); where `n` is 1 and division by 1
changes nothing, that is (x, y, z, w) itself.  No other law of arithmetic is
assumed of the scalars. -/
theorem SO3_unit_quaternion_round_trip {S : Type} [Add S] [Mul S] [Div S] [LE S] [One S]
    [DecidableRel (fun a b : S => a ≤ b)] (N : Numerics S) (x y z w : S)
    (hn : N.epsilon ≤ N.sqrt (x * x + y * y + z * z + w * w)) :
    (SO3_init N x y z w).map SO3_unit_quaternion
      = some ![x / N.sqrt (x * x + y * y + z * z + w * w),
               y / N.sqrt (x * x + y * y + z * z + w * w),
               z / N.sqrt (x * x + y * y + z * z + w * w),
               w / N.sqrt (x * x + y * y + z * z + w * w)] ∧
    (N.sqrt (x * x + y * y + z * z + w * w) = 1 → (∀ a : S, a / 1 = a) →
      (SO3_init N x y z w).map SO3_unit_quaternion = some ![x, y, z, w]) := by
  have hval : (SO3_init N x y z w).map SO3_unit_quaternion
      = some ![x / N.sqrt (x * x + y * y + z * z + w * w),
               y / N.sqrt (x * x + y * y + z * z + w * w),
               z / N.sqrt (x * x + y * y + z * z + w * w),
               w / N.sqrt (x * x + y * y + z * z + w * w)] := by
    simp only [SO3_init, SO3d.ofQuaternion, QuaternionType.init, hn, if_true,
      Option.map_some', SO3_unit_quaternion, SO3d.unit_quaternion, QuaternionType.coeffs]
  refine ⟨hval, fun h1 hdiv => ?_⟩
  rw [hval, h1]
  simp only [hdiv]

/-- Witness for C1 (amended), at coefficients that no reordering leaves in
place: the unit quaternion (2/3, 1/3, 2/3, 0) comes back as it is, and
(2, 1, 2, 0), of norm 3, comes back as (2/3, 1/3, 2/3, 0). -/
theorem SO3_unit_quaternion_round_trip_witness :
    (SO3_init ratNumerics (2/3) (1/3) (2/3) 0).map SO3_unit_quaternion
      = some ![(2/3 : ℚ), 1/3, 2/3, 0] ∧
    (SO3_init ratNumerics 2 1 2 0).map SO3_unit_quaternion
      = some ![(2 : ℚ) / 3, 1 / 3, 2 / 3, 0 / 3] := by
  have h1 : ratNumerics.sqrt ((2/3 : ℚ) * (2/3) + 1/3 * (1/3) + 2/3 * (2/3) + 0 * 0) = 1 := by
    rw [show ((2/3 : ℚ) * (2/3) + 1/3 * (1/3) + 2/3 * (2/3) + 0 * 0) = 1 by norm_num]
    exact ratNumerics_sqrt_one
  have h3 : ratNumerics.sqrt ((2 : ℚ) * 2 + 1 * 1 + 2 * 2 + 0 * 0) = 3 := by
    rw [show ((2 : ℚ) * 2 + 1 * 1 + 2 * 2 + 0 * 0) = 9 by norm_num]
    exact ratNumerics_sqrt_nine
  refine ⟨(SO3_unit_quaternion_round_trip ratNumerics (2/3) (1/3) (2/3) 0
      (by rw [h1]; exact ratNumerics_epsilon_le_one)).2 h1 (fun a => div_one a), ?_⟩
  have h := (SO3_unit_quaternion_round_trip ratNumerics 2 1 2 0
      (by rw [h3]; norm_num [ratNumerics])).1
  rw [h3] at h
  exact h

/-- C2: `SO3(x, y, z, w)` hands its arguments to the quaternion constructor in
the order (w, x, y, z), so `w` is the scalar part and (x, y, z) the vector
part; and `SO3(0, 0, 0, 1)` is the identity rotation `SO3()`. -/
theorem SO3_init_argument_order {S : Type} [LinearOrderedField S] (N : Numerics S)
    (hs : N.sqrt 1 = 1) (he : N.epsilon ≤ 1) :
    (∀ x y z w : S,
      SO3_init N x y z w = SO3d.ofQuaternion N (QuaternionType.init w x y z) ∧
      (QuaternionType.init w x y z).scalarPart = w ∧
      (QuaternionType.init w x y z).vec = ![x, y, z]) ∧
    SO3_init N 0 0 0 1 = some SO3d.identity := by
  refine ⟨fun x y z w => ⟨rfl, rfl, rfl⟩, ?_⟩
  have h := SO3d.ofQuaternion_of_unit N (QuaternionType.init 1 0 0 0) hs he
    (by simp [QuaternionType.init])
  simpa [SO3_init, SO3d.identity] using h

/-- Witness for C2 over the rationals: the hypotheses hold there, the
arguments (1, 2, 3, 4) reach the quaternion constructor as (4, 1, 2, 3), and
`SO3(0, 0, 0, 1)` is the identity. -/
theorem SO3_init_argument_order_witness :
    ratNumerics.sqrt 1 = 1 ∧ ratNumerics.epsilon ≤ 1 ∧
    SO3_init ratNumerics 1 2 3 4 = SO3d.ofQuaternion ratNumerics (QuaternionType.init 4 1 2 3) ∧
    SO3_init ratNumerics 0 0 0 1 = some SO3d.identity :=
  ⟨ratNumerics_sqrt_one, ratNumerics_epsilon_le_one,
   ((SO3_init_argument_order ratNumerics ratNumerics_sqrt_one
      ratNumerics_epsilon_le_one).1 1 2 3 4).1,
   (SO3_init_argument_order ratNumerics ratNumerics_sqrt_one ratNumerics_epsilon_le_one).2⟩

/-! ## SE2 and SE3 -/

/-- C4: `SE2(r, t).so2()` is `r` and `SE2(r, t).translation()` is `t`, and
`SE3(r, t).so3()` is `r` and `SE3(r, t).translation()` is `t`, exactly. -/
theorem SE_component_round_trip {S : Type} :
    (∀ (r : SO2d S) (t : Vector2 S),
      SE2_so2 (SE2_init r t) = r ∧ SE2_translation (SE2_init r t) = t) ∧
    (∀ (r : SO3d S) (t : Vector3 S),
      SE3_so3 (SE3_init r t) = r ∧ SE3_translation (SE3_init r t) = t) :=
  ⟨fun _ _ => ⟨rfl, rfl⟩, fun _ _ => ⟨rfl, rfl⟩⟩

/-! ## Multiply-assign -/

/-- C6: for any wrapped type `T` (so for each of SO2, SE2, SO3, SE3) and any
`a`, `b`, `__imul__(a, b)` returns a newly constructed `T` equal to the product
`a * b`, the value the bound binary `*` returns, and leaves `a` and `b`
unchanged. -/
theorem imul_returns_product {T Tangent Point : Type} (L : SophusType T Tangent Point)
    (a b : T) :
    (__imul__ L a b).result = L.mul a b ∧
    (__imul__ L a b).result = (self_mul_self L a b).result ∧
    (__imul__ L a b).lhs = a ∧ (__imul__ L a b).rhs = b :=
  ⟨rfl, rfl, rfl, rfl⟩

/-! ## Module version -/

end Minisam
